import Mathlib

/-!
# Verification of LazyCommits (`src/gitLogic.js`, `src/index.js`)

A shallow embedding of the git automation tool.  Every awaited call to the
external VCS binding (`simple-git`), and every interactive prompt, is modelled
by an `Except String` value supplied by an environment record: `Except.error m`
models a rejected promise carrying error text `m`.  The embedded functions
return the list of commands actually issued (the trace) together with either a
terminal report (the async function resolved) or a propagated error (the async
function rejected because an `await` outside any `try` threw).
-/

set_option autoImplicit false

/-- Boolean test: is the character list `sub` a leading segment of `s`?
Mirrors the leading-segment check underlying JavaScript `String.includes`. -/
def hasPrefixL : List Char → List Char → Bool
  | _, [] => true
  | [], _ :: _ => false
  | a :: as, b :: bs => a == b && hasPrefixL as bs

/-- Boolean substring test on character lists: does `sub` occur contiguously
anywhere in `s`? -/
def hasSubL : List Char → List Char → Bool
  | [], sub => sub.isEmpty
  | c :: cs, sub => hasPrefixL (c :: cs) sub || hasSubL cs sub

/-- JavaScript's case-sensitive `s.includes(sub)`. -/
def strContains (s sub : String) : Bool :=
  hasSubL s.data sub.data

/-- Classification of the initial plain-push error, gitLogic.js line 57:
`error.message.includes('No configured push destination') ||
 error.message.includes('no upstream branch')`.  Note the capital `N`. -/
def isNoUpstreamErr (m : String) : Bool :=
  strContains m "No configured push destination" || strContains m "no upstream branch"

/-- Classification of the initial plain-push error, gitLogic.js line 141:
`'fetch first' || 'rejected' || 'divergent branches'`. -/
def isRemoteAheadTop (m : String) : Bool :=
  strContains m "fetch first" || strContains m "rejected" || strContains m "divergent branches"

/-- Classification of the sync-push error, gitLogic.js line 113: same three
substrings plus `'non-fast-forward'`. -/
def isRemoteAheadSync (m : String) : Bool :=
  strContains m "fetch first" || strContains m "rejected" ||
    strContains m "divergent branches" || strContains m "non-fast-forward"

/-- Did the awaited call resolve? -/
def isOkB {α : Type} : Except String α → Bool
  | .ok _ => true
  | .error _ => false

instance {ε α : Type} [DecidableEq ε] [DecidableEq α] : DecidableEq (Except ε α) := fun a b =>
  match a, b with
  | .error e, .error f =>
    if h : e = f then isTrue (congrArg Except.error h)
    else isFalse fun hh => h (Except.error.inj hh)
  | .error _, .ok _ => isFalse fun hh => Except.noConfusion hh
  | .ok _, .error _ => isFalse fun hh => Except.noConfusion hh
  | .ok x, .ok y =>
    if h : x = y then isTrue (congrArg Except.ok h)
    else isFalse fun hh => h (Except.ok.inj hh)

/-- One VCS command or prompt issued by `pushChanges`, in issue order. -/
inductive Cmd where
  /-- plain `git.push()` (lines 53 and 147) -/
  | plainPush
  /-- `git.getRemotes()` (line 61) -/
  | getRemotes
  /-- `git.revparse(['--abbrev-ref', 'HEAD'])` (lines 70, 107, 117, 145) -/
  | revparseHead
  /-- `git.push(remote, branch, ['-u'])` (lines 71, 109, 122, 129) -/
  | pushUp (remote branch : String)
  /-- the interactive remote-URL prompt (line 82) -/
  | promptRemoteUrl
  /-- `git.addRemote(name, url)` (line 93) -/
  | addRemote (name url : String)
  /-- `git.pull(remote, branch, {'--allow-unrelated-histories': null})` (line 121) -/
  | pullUnrel (remote branch : String)
  /-- `git.pull(remote, branch, {'--rebase': 'true'})` (lines 128, 146) -/
  | pullReb (remote branch : String)
  deriving DecidableEq

/-- The terminal report `pushChanges` leaves the operator with (spinner
succeed/fail text), one constructor per reporting site. -/
inductive Report where
  /-- line 54: `Changes pushed to remote.` -/
  | pushed
  /-- line 72: `Upstream linked and changes pushed!` -/
  | upstreamLinked
  /-- line 98: operator left the URL prompt empty, silent return -/
  | skippedNoRemote
  /-- line 110: `Remote configured and changes pushed!` -/
  | remoteConfigured
  /-- line 123: `Reconciled and pushed!` -/
  | reconciled
  /-- line 130: `Rebased and pushed!` -/
  | rebasedAndPushed
  /-- line 132: `Critical failure syncing with remote: ...` -/
  | criticalSyncFailure (msg : String)
  /-- line 136: `Failed to push: ...` -/
  | pushFailed (msg : String)
  /-- line 148: `Pulled remote changes and pushed.` -/
  | pulledAndPushed
  /-- line 150: `Failed to auto-sync. Please pull manually ...` -/
  | autoSyncFailed
  /-- line 153: `Failed to push changes: ...` -/
  | fatalPush (msg : String)
  deriving DecidableEq

/-- Environment for one `pushChanges` run: the outcome the external world gives
to each awaited call site, field order following the source. -/
structure PushEnv where
  /-- line 53 `git.push()` -/
  plainPush : Except String Unit
  /-- line 61 `git.getRemotes()`, projected to the list of remote names -/
  getRemotes : Except String (List String)
  /-- line 70 `git.revparse` -/
  revparseLink : Except String String
  /-- line 71 `git.push('origin', branch, ['-u'])` -/
  linkPush : Except String Unit
  /-- line 82 `inquirer.prompt`, projected to `answers.remoteUrl` -/
  promptUrl : Except String String
  /-- line 93 `git.addRemote('origin', remoteUrl)` -/
  addRemote : Except String Unit
  /-- line 107 `git.revparse` -/
  revparseSync : Except String String
  /-- line 109 `git.push('origin', branch, ['-u'])` -/
  syncPush : Except String Unit
  /-- line 117 `git.revparse` (only run when the branch is still unknown) -/
  revparseSafe : Except String String
  /-- line 121 `git.pull('origin', branch, {'--allow-unrelated-histories': null})` -/
  pullUnrelated : Except String Unit
  /-- line 122 `git.push('origin', branch, ['-u'])` -/
  pushAfterPull : Except String Unit
  /-- line 128 `git.pull('origin', branch, {'--rebase': 'true'})` -/
  pullRebase : Except String Unit
  /-- line 129 `git.push('origin', branch, ['-u'])` -/
  pushAfterRebase : Except String Unit
  /-- line 145 `git.revparse` -/
  revparseSimple : Except String String
  /-- line 146 `git.pull('origin', branch, {'--rebase': 'true'})` -/
  pullRebaseSimple : Except String Unit
  /-- line 147 `git.push()` -/
  plainPushRetry : Except String Unit

/-- gitLogic.js lines 126–133: the inner `try { pull --rebase; push -u }`
fallback; any throw is caught at line 131 and reported as a critical failure. -/
def rebaseReconcile (env : PushEnv) (b : String) : List Cmd × Report :=
  match env.pullRebase with
  | .error fe => ([Cmd.pullReb "origin" b], Report.criticalSyncFailure fe)
  | .ok _ =>
    match env.pushAfterRebase with
    | .error fe => ([Cmd.pullReb "origin" b, Cmd.pushUp "origin" b], Report.criticalSyncFailure fe)
    | .ok _ => ([Cmd.pullReb "origin" b, Cmd.pushUp "origin" b], Report.rebasedAndPushed)

/-- gitLogic.js lines 119–134: `try { pull --allow-unrelated-histories; push -u }`;
on any throw the catch at line 124 runs `rebaseReconcile`. -/
def reconcile (env : PushEnv) (b : String) : List Cmd × Report :=
  match env.pullUnrelated with
  | .error _ =>
    let r := rebaseReconcile env b
    (Cmd.pullUnrel "origin" b :: r.1, r.2)
  | .ok _ =>
    match env.pushAfterPull with
    | .error _ =>
      let r := rebaseReconcile env b
      (Cmd.pullUnrel "origin" b :: Cmd.pushUp "origin" b :: r.1, r.2)
    | .ok _ => ([Cmd.pullUnrel "origin" b, Cmd.pushUp "origin" b], Report.reconciled)

/-- gitLogic.js lines 111–138: the `catch (pushErr)` handler of the sync push.
`bKnown` is the branch name if line 107's revparse had succeeded.  The
`revparse` at line 117 sits inside the catch but outside any `try`, so its
failure propagates out of `pushChanges` (modelled as `Except.error`). -/
def handleSyncPushErr (env : PushEnv) (m : String) (bKnown : Option String) :
    List Cmd × Except String Report :=
  if isRemoteAheadSync m then
    match bKnown with
    | some b =>
      let r := reconcile env b
      (r.1, .ok r.2)
    | none =>
      match env.revparseSafe with
      | .error e => ([Cmd.revparseHead], .error e)
      | .ok b =>
        let r := reconcile env b
        (Cmd.revparseHead :: r.1, .ok r.2)
  else ([], .ok (Report.pushFailed m))

/-- gitLogic.js lines 102–139: `try { branch = revparse; push -u } catch`.
A throw from the revparse at line 107 is also caught by line 111's handler,
with the branch still unknown. -/
def syncWithRemote (env : PushEnv) : List Cmd × Except String Report :=
  match env.revparseSync with
  | .error e =>
    let r := handleSyncPushErr env e none
    (Cmd.revparseHead :: r.1, r.2)
  | .ok b =>
    match env.syncPush with
    | .ok _ => ([Cmd.revparseHead, Cmd.pushUp "origin" b], .ok Report.remoteConfigured)
    | .error pe =>
      let r := handleSyncPushErr env pe (some b)
      (Cmd.revparseHead :: Cmd.pushUp "origin" b :: r.1, r.2)

/-- gitLogic.js lines 66–78 then 102–139: origin exists, try to link upstream;
on any throw (revparse or push), fall through to the sync block. -/
def linkUpstream (env : PushEnv) : List Cmd × Except String Report :=
  match env.revparseLink with
  | .error _ =>
    let s := syncWithRemote env
    (Cmd.revparseHead :: s.1, s.2)
  | .ok b =>
    match env.linkPush with
    | .ok _ => ([Cmd.revparseHead, Cmd.pushUp "origin" b], .ok Report.upstreamLinked)
    | .error _ =>
      let s := syncWithRemote env
      (Cmd.revparseHead :: Cmd.pushUp "origin" b :: s.1, s.2)

/-- gitLogic.js lines 79–100 then 102–139: no origin remote, prompt for a URL.
The prompt itself (line 82) is not inside any `try`, so its rejection
propagates.  An empty answer returns silently (line 98).  The add-remote's own
failure is swallowed at line 94 and execution proceeds identically. -/
def promptForRemote (env : PushEnv) : List Cmd × Except String Report :=
  match env.promptUrl with
  | .error e => ([Cmd.promptRemoteUrl], .error e)
  | .ok url =>
    if url = "" then ([Cmd.promptRemoteUrl], .ok Report.skippedNoRemote)
    else
      let s := syncWithRemote env
      let tail := Cmd.addRemote "origin" url :: s.1
      match env.addRemote with
      | .ok _ => (Cmd.promptRemoteUrl :: tail, s.2)
      | .error _ => (Cmd.promptRemoteUrl :: tail, s.2)

/-- gitLogic.js lines 60–139: the no-upstream recovery.  `getRemotes` at
line 61 is not inside any `try`, so its rejection propagates. -/
def noUpstreamRecovery (env : PushEnv) : List Cmd × Except String Report :=
  match env.getRemotes with
  | .error e => ([Cmd.getRemotes], .error e)
  | .ok remotes =>
    if remotes.contains "origin" then
      let r := linkUpstream env
      (Cmd.getRemotes :: r.1, r.2)
    else
      let r := promptForRemote env
      (Cmd.getRemotes :: r.1, r.2)

/-- gitLogic.js lines 143–151: remote ahead during normal operation — rebase
pull then plain push, any throw caught at line 149. -/
def remoteAheadRecovery (env : PushEnv) : List Cmd × Report :=
  match env.revparseSimple with
  | .error _ => ([Cmd.revparseHead], Report.autoSyncFailed)
  | .ok b =>
    match env.pullRebaseSimple with
    | .error _ => ([Cmd.revparseHead, Cmd.pullReb "origin" b], Report.autoSyncFailed)
    | .ok _ =>
      match env.plainPushRetry with
      | .error _ => ([Cmd.revparseHead, Cmd.pullReb "origin" b, Cmd.plainPush], Report.autoSyncFailed)
      | .ok _ => ([Cmd.revparseHead, Cmd.pullReb "origin" b, Cmd.plainPush], Report.pulledAndPushed)

/-- gitLogic.js lines 50–156: `pushChanges`.  Returns the trace of issued
commands and either the terminal report or a propagated rejection. -/
def pushChanges (env : PushEnv) : List Cmd × Except String Report :=
  match env.plainPush with
  | .ok _ => ([Cmd.plainPush], .ok Report.pushed)
  | .error m =>
    if isNoUpstreamErr m then
      let r := noUpstreamRecovery env
      (Cmd.plainPush :: r.1, r.2)
    else if isRemoteAheadTop m then
      let r := remoteAheadRecovery env
      (Cmd.plainPush :: r.1, .ok r.2)
    else ([Cmd.plainPush], .ok (Report.fatalPush m))

/-- Recognise the interactive prompt in a trace. -/
def Cmd.isPromptCmd : Cmd → Bool
  | .promptRemoteUrl => true
  | _ => false

/-- Recognise an add-remote command in a trace. -/
def Cmd.isAddRemoteCmd : Cmd → Bool
  | .addRemote _ _ => true
  | _ => false

/-- Recognise a `push ... -u` command in a trace. -/
def Cmd.isPushUpCmd : Cmd → Bool
  | .pushUp _ _ => true
  | _ => false

/-- Recognise an `--allow-unrelated-histories` pull in a trace. -/
def Cmd.isUnrelPull : Cmd → Bool
  | .pullUnrel _ _ => true
  | _ => false

/-- Recognise a `--rebase` pull in a trace. -/
def Cmd.isRebasePull : Cmd → Bool
  | .pullReb _ _ => true
  | _ => false

/-- One changed working-tree file as reported by `git.status().files`
(only the `path` field is consumed by this program). -/
structure ChangedFile where
  /-- the file's path in the working tree -/
  path : String
  deriving DecidableEq

/-- One staged/commit command issued by `processFiles`. -/
inductive FCmd where
  /-- `git.add(file.path)` (line 40) -/
  | stage (p : String)
  /-- `git.commit(message)` for this file (line 42); the generated message is
  `Update <path>: Automated sync <ISO timestamp>` and is not inspected by any
  caller, so the command is identified by the file's path -/
  | commit (p : String)
  deriving DecidableEq

/-- Environment for one `processFiles` run: the outcome of the stage and commit
calls for the file at each position of the processed list. -/
structure BatchEnv where
  /-- outcome of `git.add` for the i-th processed file -/
  stageRes : Nat → Except String Unit
  /-- outcome of `git.commit` for the i-th processed file -/
  commitRes : Nat → Except String Unit

/-- gitLogic.js lines 37–47, one loop iteration: stage, then (only if staging
did not throw) commit; any throw is caught at line 44 and reported, and the
Boolean records whether the spinner ended in `succeed`. -/
def processOne (env : BatchEnv) (i : Nat) (f : ChangedFile) : List FCmd × Bool :=
  match env.stageRes i with
  | .error _ => ([FCmd.stage f.path], false)
  | .ok _ =>
    match env.commitRes i with
    | .error _ => ([FCmd.stage f.path, FCmd.commit f.path], false)
    | .ok _ => ([FCmd.stage f.path, FCmd.commit f.path], true)

/-- gitLogic.js line 34: `limit ? files.slice(0, limit) : files` — a falsy
(zero) limit selects every file. -/
def selectFiles (files : List ChangedFile) (limit : Nat) : List ChangedFile :=
  if limit != 0 then files.take limit else files

/-- The `for (const file of filesToProcess)` loop, threading the position `i`
so the environment can give each iteration its own outcomes. -/
def processFilesGo (env : BatchEnv) : Nat → List ChangedFile → List FCmd × List Bool
  | _, [] => ([], [])
  | i, f :: fs =>
    let r := processOne env i f
    let rest := processFilesGo env (i + 1) fs
    (r.1 ++ rest.1, r.2 :: rest.2)

/-- gitLogic.js lines 28–48: `processFiles(files, limit = 5)`.  Returns the
trace of stage/commit commands and the per-file success reports. -/
def processFiles (env : BatchEnv) (files : List ChangedFile) (limit : Nat) :
    List FCmd × List Bool :=
  if files.isEmpty then ([], [])
  else processFilesGo env 0 (selectFiles files limit)

/-- The paths of the commit commands in a trace, in order. -/
def commitsOf (t : List FCmd) : List String :=
  t.filterMap fun c =>
    match c with
    | FCmd.commit p => some p
    | FCmd.stage _ => none

/-- The paths of the stage commands in a trace, in order. -/
def stagesOf (t : List FCmd) : List String :=
  t.filterMap fun c =>
    match c with
    | FCmd.stage p => some p
    | FCmd.commit _ => none

/-- Environment for `checkGitStatus`: outcomes of `git.checkIsRepo()` and
`git.status()` (the latter projected to its `files` list). -/
structure StatusEnv where
  /-- line 10 `git.checkIsRepo()` -/
  checkIsRepo : Except String Bool
  /-- line 16 `git.status()`, projected to `status.files` -/
  status : Except String (List ChangedFile)

/-- gitLogic.js lines 8–22: `checkGitStatus` — `none` models the `null` the
function returns when the directory is not a repository or a query throws. -/
def checkGitStatus (e : StatusEnv) : Option (List ChangedFile) :=
  match e.checkIsRepo with
  | .error _ => none
  | .ok false => none
  | .ok true =>
    match e.status with
    | .error _ => none
    | .ok fs => some fs

/-- Environment for `waitForThreshold`: what `checkGitStatus` returns at the
n-th timer tick (`none` models a failed status read). -/
structure WaitEnv where
  /-- result of the status read at the n-th poll -/
  polls : Nat → Option (List ChangedFile)

/-- gitLogic.js line 167: `files ? files.length : 0` — a failed read counts as
zero changed files. -/
def pollCount : Option (List ChangedFile) → Nat
  | none => 0
  | some fs => fs.length

/-- The changed-file count the waiter sees at the n-th poll. -/
def pollsCount (e : WaitEnv) (n : Nat) : Nat :=
  pollCount (e.polls n)

/-- gitLogic.js line 176: the `setInterval` period is 5000 ms, so the n-th poll
fires at `5000 * (n + 1)` milliseconds after the waiter starts. -/
def pollTimeMs (n : Nat) : Nat :=
  5000 * (n + 1)

/-- The waiter resolves at poll `n`: the count there meets the threshold and no
earlier poll did (lines 171–175; the interval is cleared exactly once). -/
def waitResolvesAt (e : WaitEnv) (threshold n : Nat) : Prop :=
  threshold ≤ pollsCount e n ∧ ∀ m < n, pollsCount e m < threshold

/-- gitLogic.js lines 161–178 as a fuel-indexed step function: starting from
poll `s`, run at most `fuel` further polls; resolve with the index and file
list of the first poll whose count meets the threshold, or `none` if the fuel
runs out first (the real waiter has no fuel bound: it polls forever). -/
def waitForThresholdFuel (e : WaitEnv) (threshold : Nat) : Nat → Nat → Option (Nat × Option (List ChangedFile))
  | _, 0 => none
  | s, fuel + 1 =>
    if threshold ≤ pollsCount e s then some (s, e.polls s)
    else waitForThresholdFuel e threshold (s + 1) fuel

/-- A `{all, current}` branch summary as returned by `git.branchLocal()`. -/
structure BranchSet where
  /-- names of all local branches -/
  all : List String
  /-- the currently checked-out branch -/
  current : String
  deriving DecidableEq

/-- gitLogic.js lines 180–188: `getBranches` returns the summary, or `null`
when the query throws. -/
def getBranches (r : Except String BranchSet) : Option BranchSet :=
  match r with
  | .ok b => some b
  | .error _ => none

/-- What the startup section of `main` did: whether the operator was prompted,
which branch (if any) a checkout was attempted on, and whether control reached
the commit-and-push loop. -/
structure StartupTrace where
  /-- an interactive branch-selection prompt was issued -/
  prompted : Bool
  /-- `checkoutBranch` was called on this branch -/
  checkoutTarget : Option String
  /-- execution proceeded into the `while (true)` loop -/
  entersLoop : Bool
  deriving DecidableEq

/-- index.js lines 19–36: branch selection runs only when `getBranches`
returned a truthy summary; the chosen branch is checked out only when it
differs from the current one; either way the loop is entered. -/
def branchSelection (branches : Option BranchSet) (answer : String) : StartupTrace :=
  match branches with
  | none => ⟨false, none, true⟩
  | some bs => ⟨true, if answer = bs.current then none else some answer, true⟩

/-- One iteration decision of the `while (true)` loop. -/
inductive CycleAction where
  /-- index.js lines 42–46: status read failed — sleep `delayMs` and retry,
  with no commit and no push this cycle -/
  | waitRetry (delayMs : Nat)
  /-- index.js lines 48–51: at least 5 changed files — `processFiles(files, 5)`
  then `pushChanges()` -/
  | commitAndPush (batch : List ChangedFile) (limit : Nat)
  /-- index.js lines 53–61: below the threshold — `waitForThreshold(5)`, then
  commit and push the list it resolves with -/
  | waitThenCommitAndPush (threshold : Nat)
  deriving DecidableEq

/-- index.js lines 38–62: the branching of one loop iteration on the status
read's result. -/
def mainCycle : Option (List ChangedFile) → CycleAction
  | none => .waitRetry 5000
  | some files =>
    if 5 ≤ files.length then .commitAndPush files 5 else .waitThenCommitAndPush 5

/-- Does the cycle action reach `processFiles`/`pushChanges`? -/
def cycleRunsCommit : CycleAction → Bool
  | .waitRetry _ => false
  | .commitAndPush _ _ => true
  | .waitThenCommitAndPush _ => true

/-- The sync block (lines 102–139) only issues revparse, push and pull
commands — never a prompt, a remote-list query or an add-remote. -/
def Cmd.isSyncCmd : Cmd → Bool
  | .revparseHead => true
  | .pushUp _ _ => true
  | .pullUnrel _ _ => true
  | .pullReb _ _ => true
  | _ => false

theorem rebaseReconcile_head (env : PushEnv) (b : String) :
    ∃ t, (rebaseReconcile env b).1 = Cmd.pullReb "origin" b :: t := by
  unfold rebaseReconcile
  cases env.pullRebase with
  | error fe => exact ⟨_, rfl⟩
  | ok u =>
    cases env.pushAfterRebase with
    | error fe => exact ⟨_, rfl⟩
    | ok v => exact ⟨_, rfl⟩

theorem rebaseReconcile_syncCmds (env : PushEnv) (b : String) :
    ∀ c ∈ (rebaseReconcile env b).1, Cmd.isSyncCmd c = true := by
  unfold rebaseReconcile
  cases env.pullRebase with
  | error fe => simp [Cmd.isSyncCmd]
  | ok u =>
    cases env.pushAfterRebase with
    | error fe => simp [Cmd.isSyncCmd]
    | ok v => simp [Cmd.isSyncCmd]

theorem rebaseReconcile_critical (env : PushEnv) (b : String) (f : String)
    (h : (rebaseReconcile env b).2 = Report.criticalSyncFailure f) :
    Cmd.pullReb "origin" b ∈ (rebaseReconcile env b).1 ∧
      (env.pullRebase = Except.error f ∨
        (env.pullRebase = Except.ok () ∧ env.pushAfterRebase = Except.error f)) := by
  unfold rebaseReconcile at h ⊢
  cases hpr : env.pullRebase with
  | error fe =>
    rw [hpr] at h
    simp at h
    subst h
    simp
  | ok u =>
    rw [hpr] at h
    cases hpa : env.pushAfterRebase with
    | error fe =>
      rw [hpa] at h
      simp at h
      subst h
      cases u
      simp [hpa]
    | ok v =>
      rw [hpa] at h
      simp at h

theorem reconcile_head (env : PushEnv) (b : String) :
    (reconcile env b).1.head? = some (Cmd.pullUnrel "origin" b) := by
  unfold reconcile
  cases env.pullUnrelated with
  | error e => rfl
  | ok u =>
    cases env.pushAfterPull with
    | error e => rfl
    | ok v => rfl

theorem reconcile_syncCmds (env : PushEnv) (b : String) :
    ∀ c ∈ (reconcile env b).1, Cmd.isSyncCmd c = true := by
  unfold reconcile
  cases env.pullUnrelated with
  | error e =>
    intro c hc
    simp at hc
    rcases hc with rfl | hc
    · rfl
    · exact rebaseReconcile_syncCmds env b c hc
  | ok u =>
    cases env.pushAfterPull with
    | error e =>
      intro c hc
      simp at hc
      rcases hc with rfl | rfl | hc
      · rfl
      · rfl
      · exact rebaseReconcile_syncCmds env b c hc
    | ok v => simp [Cmd.isSyncCmd]

theorem reconcile_critical (env : PushEnv) (b : String) (f : String)
    (h : (reconcile env b).2 = Report.criticalSyncFailure f) :
    Cmd.pullReb "origin" b ∈ (reconcile env b).1 ∧
      (env.pullRebase = Except.error f ∨
        (env.pullRebase = Except.ok () ∧ env.pushAfterRebase = Except.error f)) := by
  unfold reconcile at h ⊢
  cases hpu : env.pullUnrelated with
  | error e =>
    rw [hpu] at h
    obtain ⟨hm, hd⟩ := rebaseReconcile_critical env b f h
    exact ⟨List.mem_cons_of_mem _ hm, hd⟩
  | ok u =>
    rw [hpu] at h
    cases hpa : env.pushAfterPull with
    | error e =>
      rw [hpa] at h
      obtain ⟨hm, hd⟩ := rebaseReconcile_critical env b f h
      exact ⟨List.mem_cons_of_mem _ (List.mem_cons_of_mem _ hm), hd⟩
    | ok v =>
      rw [hpa] at h
      simp at h

theorem handleSyncPushErr_syncCmds (env : PushEnv) (m : String) (bk : Option String) :
    ∀ c ∈ (handleSyncPushErr env m bk).1, Cmd.isSyncCmd c = true := by
  unfold handleSyncPushErr
  split
  · cases bk with
    | some b => exact reconcile_syncCmds env b
    | none =>
      cases env.revparseSafe with
      | error e => simp [Cmd.isSyncCmd]
      | ok b =>
        intro c hc
        simp at hc
        rcases hc with rfl | hc
        · rfl
        · exact reconcile_syncCmds env b c hc
  · simp

theorem handleSyncPushErr_resolves (env : PushEnv) (m : String) (bk : Option String)
    (h3 : isOkB env.revparseSafe = true) :
    isOkB (handleSyncPushErr env m bk).2 = true := by
  unfold handleSyncPushErr
  split
  · cases bk with
    | some b => rfl
    | none =>
      cases hr : env.revparseSafe with
      | error e => rw [hr] at h3; simp [isOkB] at h3
      | ok b => rfl
  · rfl

theorem syncWithRemote_syncCmds (env : PushEnv) :
    ∀ c ∈ (syncWithRemote env).1, Cmd.isSyncCmd c = true := by
  unfold syncWithRemote
  cases env.revparseSync with
  | error e =>
    intro c hc
    simp at hc
    rcases hc with rfl | hc
    · rfl
    · exact handleSyncPushErr_syncCmds env e none c hc
  | ok b =>
    cases env.syncPush with
    | ok v => simp [Cmd.isSyncCmd]
    | error pe =>
      intro c hc
      simp at hc
      rcases hc with rfl | rfl | hc
      · rfl
      · rfl
      · exact handleSyncPushErr_syncCmds env pe (some b) c hc

theorem syncWithRemote_resolves (env : PushEnv) (h3 : isOkB env.revparseSafe = true) :
    isOkB (syncWithRemote env).2 = true := by
  unfold syncWithRemote
  cases env.revparseSync with
  | error e => exact handleSyncPushErr_resolves env e none h3
  | ok b =>
    cases env.syncPush with
    | ok v => rfl
    | error pe => exact handleSyncPushErr_resolves env pe (some b) h3

theorem linkUpstream_resolves (env : PushEnv) (h3 : isOkB env.revparseSafe = true) :
    isOkB (linkUpstream env).2 = true := by
  unfold linkUpstream
  cases env.revparseLink with
  | error e => exact syncWithRemote_resolves env h3
  | ok b =>
    cases env.linkPush with
    | ok v => rfl
    | error e => exact syncWithRemote_resolves env h3

theorem promptForRemote_resolves (env : PushEnv) (h2 : isOkB env.promptUrl = true)
    (h3 : isOkB env.revparseSafe = true) :
    isOkB (promptForRemote env).2 = true := by
  unfold promptForRemote
  cases hu : env.promptUrl with
  | error e => rw [hu] at h2; simp [isOkB] at h2
  | ok url =>
    by_cases hurl : url = ""
    · simp [hurl, isOkB]
    · simp only [hurl, if_neg hurl]
      cases env.addRemote with
      | ok v => exact syncWithRemote_resolves env h3
      | error e => exact syncWithRemote_resolves env h3

theorem noUpstreamRecovery_resolves (env : PushEnv)
    (h1 : isOkB env.getRemotes = true) (h2 : isOkB env.promptUrl = true)
    (h3 : isOkB env.revparseSafe = true) :
    isOkB (noUpstreamRecovery env).2 = true := by
  unfold noUpstreamRecovery
  cases hr : env.getRemotes with
  | error e => rw [hr] at h1; simp [isOkB] at h1
  | ok remotes =>
    dsimp only
    by_cases hc : remotes.contains "origin" = true
    · rw [if_pos hc]
      exact linkUpstream_resolves env h3
    · rw [if_neg hc]
      exact promptForRemote_resolves env h2 h3

theorem noUpstreamRecovery_head (env : PushEnv) :
    ∃ t, (noUpstreamRecovery env).1 = Cmd.getRemotes :: t := by
  unfold noUpstreamRecovery
  cases env.getRemotes with
  | error e => exact ⟨_, rfl⟩
  | ok remotes =>
    dsimp only
    by_cases hc : remotes.contains "origin" = true
    · rw [if_pos hc]
      exact ⟨_, rfl⟩
    · rw [if_neg hc]
      exact ⟨_, rfl⟩

/-- A run in which every external call resolves: origin is configured and
every push/pull succeeds. -/
def envBase : PushEnv :=
  ⟨.ok (), .ok ["origin"], .ok "main", .ok (), .ok "https://example.com/repo.git", .ok (),
    .ok "main", .ok (), .ok "main", .ok (), .ok (), .ok (), .ok (), .ok "main", .ok (), .ok ()⟩

/-- A run whose initial push fails with a lower-case variant of the
no-destination message (the spec quotes the substring in lower case). -/
def envLower : PushEnv :=
  ⟨.error "fatal: no configured push destination", .ok ["origin"], .ok "main", .ok (),
    .ok "https://example.com/repo.git", .ok (), .ok "main", .ok (), .ok "main", .ok (), .ok (),
    .ok (), .ok (), .ok "main", .ok (), .ok ()⟩

/-- A run whose initial push is rejected because the remote is ahead; the
rebase pull and the retry push succeed. -/
def envRej : PushEnv :=
  ⟨.error "updates were rejected", .ok ["origin"], .ok "main", .ok (),
    .ok "https://example.com/repo.git", .ok (), .ok "main", .ok (), .ok "main", .ok (), .ok (),
    .ok (), .ok (), .ok "main", .ok (), .ok ()⟩

/-- A run with no upstream in which the remote-list query itself rejects. -/
def envThrow : PushEnv :=
  ⟨.error "fatal: The current branch main has no upstream branch.", .error "spawn git ENOENT",
    .ok "main", .ok (), .ok "https://example.com/repo.git", .ok (), .ok "main", .ok (),
    .ok "main", .ok (), .ok (), .ok (), .ok (), .ok "main", .ok (), .ok ()⟩

/-- A run with no upstream, an existing origin, a rejected upstream-linking
push, and a successful sync push. -/
def envLink : PushEnv :=
  ⟨.error "fatal: The current branch main has no upstream branch.", .ok ["origin"],
    .ok "main", .error "! [rejected] main -> main (non-fast-forward)",
    .ok "https://example.com/repo.git", .ok (), .ok "main", .ok (), .ok "main", .ok (), .ok (),
    .ok (), .ok (), .ok "main", .ok (), .ok ()⟩

/-- A run with no upstream, no remote at all, an operator-supplied URL, and a
successful sync push. -/
def envPrompt : PushEnv :=
  ⟨.error "fatal: The current branch main has no upstream branch.", .ok [],
    .ok "main", .ok (), .ok "https://example.com/repo.git", .ok (), .ok "main", .ok (),
    .ok "main", .ok (), .ok (), .ok (), .ok (), .ok "main", .ok (), .ok ()⟩

/-- Like `envPrompt` but the operator leaves the URL prompt empty. -/
def envSkip : PushEnv :=
  ⟨.error "fatal: The current branch main has no upstream branch.", .ok [],
    .ok "main", .ok (), .ok "", .ok (), .ok "main", .ok (), .ok "main", .ok (), .ok (),
    .ok (), .ok (), .ok "main", .ok (), .ok ()⟩

/-- A run whose unrelated-histories pull fails with a conflict but whose
rebase pull and final push succeed. -/
def envRejSync : PushEnv :=
  ⟨.error "fatal: The current branch main has no upstream branch.", .ok ["origin"],
    .ok "main", .ok (), .ok "https://example.com/repo.git", .ok (), .ok "main",
    .error "! [rejected] main -> main", .ok "main", .error "merge conflict", .ok (),
    .ok (), .ok (), .ok "main", .ok (), .ok ()⟩

/-- C1 (amended): when the initial plain push fails, `pushChanges` classifies
the error text three ways with the code's case-sensitive substrings — a
message containing `No configured push destination` (capital N) or
`no upstream branch` takes the no-upstream path, whose first action is to
query the remote list; otherwise a message containing `fetch first`,
`rejected` or `divergent branches` takes the remote-ahead recovery (rebase
pull, then plain push); otherwise a fatal push failure is reported and no
further command is issued. -/
theorem claim1_initial_push_error_classification (env : PushEnv) (m : String)
    (h : env.plainPush = Except.error m) :
    (isNoUpstreamErr m = true →
        (pushChanges env).1.take 2 = [Cmd.plainPush, Cmd.getRemotes]
      ∧ (pushChanges env).2 = (noUpstreamRecovery env).2)
  ∧ (isNoUpstreamErr m = false → isRemoteAheadTop m = true →
        (pushChanges env).1 = Cmd.plainPush :: (remoteAheadRecovery env).1
      ∧ (pushChanges env).2 = Except.ok (remoteAheadRecovery env).2
      ∧ (∀ b, env.revparseSimple = Except.ok b → env.pullRebaseSimple = Except.ok () →
          (pushChanges env).1 = [Cmd.plainPush, Cmd.revparseHead, Cmd.pullReb "origin" b, Cmd.plainPush]))
  ∧ (isNoUpstreamErr m = false → isRemoteAheadTop m = false →
        pushChanges env = ([Cmd.plainPush], Except.ok (Report.fatalPush m))) := by
  have hp : pushChanges env =
      (match env.plainPush with
        | .ok _ => ([Cmd.plainPush], .ok Report.pushed)
        | .error m =>
          if isNoUpstreamErr m then
            let r := noUpstreamRecovery env
            (Cmd.plainPush :: r.1, r.2)
          else if isRemoteAheadTop m then
            let r := remoteAheadRecovery env
            (Cmd.plainPush :: r.1, .ok r.2)
          else ([Cmd.plainPush], .ok (Report.fatalPush m))) := rfl
  rw [h] at hp
  dsimp only at hp
  refine ⟨fun hno => ?_, fun hno hra => ?_, fun hno hra => ?_⟩
  · rw [if_pos hno] at hp
    obtain ⟨t, ht⟩ := noUpstreamRecovery_head env
    rw [hp]
    exact ⟨by rw [ht]; rfl, rfl⟩
  · rw [if_neg (by simp [hno]), if_pos hra] at hp
    refine ⟨by rw [hp], by rw [hp], fun b hb hpr => ?_⟩
    have hrar : remoteAheadRecovery env =
        (match env.revparseSimple with
          | .error _ => ([Cmd.revparseHead], Report.autoSyncFailed)
          | .ok b =>
            match env.pullRebaseSimple with
            | .error _ => ([Cmd.revparseHead, Cmd.pullReb "origin" b], Report.autoSyncFailed)
            | .ok _ =>
              match env.plainPushRetry with
              | .error _ => ([Cmd.revparseHead, Cmd.pullReb "origin" b, Cmd.plainPush], Report.autoSyncFailed)
              | .ok _ => ([Cmd.revparseHead, Cmd.pullReb "origin" b, Cmd.plainPush], Report.pulledAndPushed)) := rfl
    rw [hb, hpr] at hrar
    dsimp only at hrar
    rw [hp]
    cases hrt : env.plainPushRetry with
    | error e => rw [hrt] at hrar; rw [hrar]
    | ok v => rw [hrt] at hrar; rw [hrar]
  · rw [if_neg (by simp [hno]), if_neg (by simp [hra])] at hp
    exact hp

/-- C1 counterexample: the message `fatal: no configured push destination`
does contain the spec's quoted lower-case substring, yet `pushChanges` takes
the fatal branch — one plain push, no remote-list query — because the code
matches the capitalised `No configured push destination`. -/
theorem claim1_counterexample :
    strContains "fatal: no configured push destination" "no configured push destination" = true
  ∧ pushChanges envLower =
      ([Cmd.plainPush], Except.ok (Report.fatalPush "fatal: no configured push destination")) := by
  constructor
  · decide
  · decide

/-- C1 witness: a rejected initial push takes the remote-ahead recovery —
rebase pull, then plain push. -/
theorem claim1_witness :
    (pushChanges envRej).1 = [Cmd.plainPush, Cmd.revparseHead, Cmd.pullReb "origin" "main", Cmd.plainPush] := by
  have h := claim1_initial_push_error_classification envRej "updates were rejected" rfl
  exact (h.2.1 (by decide) (by decide)).2.2 "main" rfl rfl

/-- C2 (amended): for every failure of the upstream-sync push (the
`push origin <branch> -u` of the no-upstream recovery) whose message contains
`rejected`, the reconciler's first recovery command is the pull with
allow-unrelated-histories; only if that pull-then-push fails does it attempt
`pull --rebase` followed by a push with `-u`, and a critical-sync failure is
declared only from a failure on that rebase path. -/
theorem claim2_sync_reject_reconciliation_order (env : PushEnv) (b m : String)
    (h : strContains m "rejected" = true) :
    (handleSyncPushErr env m (some b)).1.head? = some (Cmd.pullUnrel "origin" b)
  ∧ (env.pullUnrelated = Except.ok () → env.pushAfterPull = Except.ok () →
      handleSyncPushErr env m (some b) =
        ([Cmd.pullUnrel "origin" b, Cmd.pushUp "origin" b], Except.ok Report.reconciled))
  ∧ (∀ e, env.pullUnrelated = Except.error e →
      Cmd.pullReb "origin" b ∈ (handleSyncPushErr env m (some b)).1)
  ∧ (∀ e, env.pushAfterPull = Except.error e →
      Cmd.pullReb "origin" b ∈ (handleSyncPushErr env m (some b)).1)
  ∧ (∀ e, env.pullUnrelated = Except.ok () → env.pushAfterPull = Except.error e →
      env.pullRebase = Except.ok () →
      (handleSyncPushErr env m (some b)).1 =
        [Cmd.pullUnrel "origin" b, Cmd.pushUp "origin" b, Cmd.pullReb "origin" b, Cmd.pushUp "origin" b])
  ∧ (∀ f, (handleSyncPushErr env m (some b)).2 = Except.ok (Report.criticalSyncFailure f) →
      Cmd.pullReb "origin" b ∈ (handleSyncPushErr env m (some b)).1
    ∧ (env.pullRebase = Except.error f ∨
        (env.pullRebase = Except.ok () ∧ env.pushAfterRebase = Except.error f))) := by
  have hra : isRemoteAheadSync m = true := by
    unfold isRemoteAheadSync
    rw [h]
    simp
  have hh : handleSyncPushErr env m (some b) = ((reconcile env b).1, .ok (reconcile env b).2) := by
    unfold handleSyncPushErr
    rw [if_pos hra]
  rw [hh]
  refine ⟨reconcile_head env b, fun hpu hpa => ?_, fun e hpu => ?_, fun e hpa => ?_,
    fun e hpu hpa hpr => ?_, fun f hf => ?_⟩
  · unfold reconcile
    rw [hpu, hpa]
  · have hr : reconcile env b =
        (Cmd.pullUnrel "origin" b :: (rebaseReconcile env b).1, (rebaseReconcile env b).2) := by
      unfold reconcile
      rw [hpu]
    rw [hr]
    obtain ⟨t, ht⟩ := rebaseReconcile_head env b
    rw [ht]
    simp
  · cases hpu : env.pullUnrelated with
    | error e2 =>
      have hr : reconcile env b =
          (Cmd.pullUnrel "origin" b :: (rebaseReconcile env b).1, (rebaseReconcile env b).2) := by
        unfold reconcile
        rw [hpu]
      rw [hr]
      obtain ⟨t, ht⟩ := rebaseReconcile_head env b
      rw [ht]
      simp
    | ok u =>
      have hr : reconcile env b =
          (Cmd.pullUnrel "origin" b :: Cmd.pushUp "origin" b :: (rebaseReconcile env b).1,
            (rebaseReconcile env b).2) := by
        unfold reconcile
        rw [hpu, hpa]
      rw [hr]
      obtain ⟨t, ht⟩ := rebaseReconcile_head env b
      rw [ht]
      simp
  · have hr : reconcile env b =
        (Cmd.pullUnrel "origin" b :: Cmd.pushUp "origin" b :: (rebaseReconcile env b).1,
          (rebaseReconcile env b).2) := by
      unfold reconcile
      rw [hpu, hpa]
    have hrr : (rebaseReconcile env b).1 = [Cmd.pullReb "origin" b, Cmd.pushUp "origin" b] := by
      unfold rebaseReconcile
      rw [hpr]
      cases env.pushAfterRebase with
      | error fe => rfl
      | ok v => rfl
    rw [hr, hrr]
  · simp only at hf
    exact reconcile_critical env b f (Except.ok.inj hf)

/-- C2 counterexample: the claim quantifies over every push failure containing
`rejected`, but when the initial plain push fails with such a message the code
goes straight to the rebase pull (line 146) — a rebase attempt occurs and no
allow-unrelated-histories pull is ever issued. -/
theorem claim2_counterexample :
    strContains "updates were rejected" "rejected" = true
  ∧ (pushChanges envRej).1.any Cmd.isRebasePull = true
  ∧ (pushChanges envRej).1.any Cmd.isUnrelPull = false := by
  refine ⟨by decide, by decide, by decide⟩

/-- C2 witness: with a concrete conflict on the unrelated-histories pull, the
first recovery command is that pull, and the rebase pull is then attempted. -/
theorem claim2_witness :
    (handleSyncPushErr envRejSync "! [rejected] main -> main" (some "main")).1.head? =
      some (Cmd.pullUnrel "origin" "main")
  ∧ Cmd.pullReb "origin" "main" ∈
      (handleSyncPushErr envRejSync "! [rejected] main -> main" (some "main")).1 := by
  have h := claim2_sync_reject_reconciliation_order envRejSync "main" "! [rejected] main -> main"
    (by decide)
  exact ⟨h.1, h.2.2.1 "merge conflict" rfl⟩

/-- C5 (amended): `pushChanges` resolves — never propagates an exception to
its caller — provided the three awaited calls that sit outside every `try`
block resolve: the remote-list query (line 61), the remote-URL prompt
(line 82) and the safety branch-name query (line 117).  Every push and pull
failure is caught and converted into a reported terminal state. -/
theorem claim5_pushChanges_resolves (env : PushEnv)
    (h1 : isOkB env.getRemotes = true) (h2 : isOkB env.promptUrl = true)
    (h3 : isOkB env.revparseSafe = true) :
    isOkB (pushChanges env).2 = true := by
  unfold pushChanges
  cases env.plainPush with
  | ok u => rfl
  | error m =>
    dsimp only
    by_cases hno : isNoUpstreamErr m = true
    · rw [if_pos hno]
      exact noUpstreamRecovery_resolves env h1 h2 h3
    · rw [if_neg hno]
      by_cases hra : isRemoteAheadTop m = true
      · rw [if_pos hra]
        rfl
      · rw [if_neg hra]
        rfl

/-- C5 counterexample: if the initial push fails for lack of an upstream and
the remote-list query at line 61 then rejects, the rejection escapes
`pushChanges` — the returned promise rejects instead of resolving. -/
theorem claim5_counterexample :
    (pushChanges envThrow).2 = Except.error "spawn git ENOENT" := by
  decide

/-- C5 witness: in an all-successful run `pushChanges` resolves. -/
theorem claim5_witness : isOkB (pushChanges envBase).2 = true :=
  claim5_pushChanges_resolves envBase rfl rfl rfl

theorem any_false_of_all_not {α : Type} (p : α → Bool) (l : List α)
    (h : ∀ c ∈ l, p c = false) : l.any p = false := by
  induction l with
  | nil => rfl
  | cons a l ih =>
    simp only [List.any_cons]
    rw [h a (by simp), ih fun c hc => h c (by simp [hc])]
    rfl

theorem sync_trace_not_prompt (env : PushEnv) :
    ∀ c ∈ (syncWithRemote env).1, Cmd.isPromptCmd c = false := fun c hc => by
  have h := syncWithRemote_syncCmds env c hc
  cases c <;> simp_all [Cmd.isSyncCmd, Cmd.isPromptCmd]

theorem linkUpstream_head (env : PushEnv) :
    ∃ t, (linkUpstream env).1 = Cmd.revparseHead :: t := by
  unfold linkUpstream
  cases env.revparseLink with
  | error e => exact ⟨_, rfl⟩
  | ok b =>
    cases env.linkPush with
    | ok v => exact ⟨_, rfl⟩
    | error e => exact ⟨_, rfl⟩

theorem linkUpstream_noPrompt (env : PushEnv) :
    ∀ c ∈ (linkUpstream env).1, Cmd.isPromptCmd c = false := by
  unfold linkUpstream
  cases env.revparseLink with
  | error e =>
    intro c hc
    simp only [List.mem_cons] at hc
    rcases hc with rfl | hc
    · rfl
    · exact sync_trace_not_prompt env c hc
  | ok b =>
    cases env.linkPush with
    | ok v =>
      intro c hc
      simp only [List.mem_cons, List.not_mem_nil, or_false] at hc
      rcases hc with rfl | rfl <;> rfl
    | error e =>
      intro c hc
      simp only [List.mem_cons] at hc
      rcases hc with rfl | rfl | hc
      · rfl
      · rfl
      · exact sync_trace_not_prompt env c hc

/-- C3 (confirmed): in the "no upstream, origin exists" scenario `pushChanges`
never prompts; it reads the current branch and directly attempts
`push origin <branch> -u`, and if that upstream-linking push fails it falls
through — still without a prompt — to the sync push on the existing origin
remote. -/
theorem claim3_link_upstream_no_prompt (env : PushEnv) (m : String) (rs : List String)
    (hm : env.plainPush = Except.error m) (hno : isNoUpstreamErr m = true)
    (hr : env.getRemotes = Except.ok rs) (ho : rs.contains "origin" = true) :
    (pushChanges env).1.any Cmd.isPromptCmd = false
  ∧ (pushChanges env).1.take 3 = [Cmd.plainPush, Cmd.getRemotes, Cmd.revparseHead]
  ∧ (∀ b, env.revparseLink = Except.ok b →
      (pushChanges env).1.take 4 =
          [Cmd.plainPush, Cmd.getRemotes, Cmd.revparseHead, Cmd.pushUp "origin" b]
    ∧ ∀ e b2, env.linkPush = Except.error e → env.revparseSync = Except.ok b2 →
        (pushChanges env).1.take 6 =
          [Cmd.plainPush, Cmd.getRemotes, Cmd.revparseHead, Cmd.pushUp "origin" b,
            Cmd.revparseHead, Cmd.pushUp "origin" b2]) := by
  have hpc : pushChanges env =
      (Cmd.plainPush :: (noUpstreamRecovery env).1, (noUpstreamRecovery env).2) := by
    unfold pushChanges
    rw [hm]
    dsimp only
    rw [if_pos hno]
  have hnr : noUpstreamRecovery env =
      (Cmd.getRemotes :: (linkUpstream env).1, (linkUpstream env).2) := by
    unfold noUpstreamRecovery
    rw [hr]
    dsimp only
    rw [if_pos ho]
  rw [hpc, hnr]
  refine ⟨?_, ?_, fun b hb => ?_⟩
  · refine any_false_of_all_not _ _ ?_
    intro c hc
    simp only [List.mem_cons] at hc
    rcases hc with rfl | rfl | hc
    · rfl
    · rfl
    · exact linkUpstream_noPrompt env c hc
  · obtain ⟨t, ht⟩ := linkUpstream_head env
    rw [ht]
    rfl
  · have hlu1 : ∃ t, (linkUpstream env).1 = Cmd.revparseHead :: Cmd.pushUp "origin" b :: t ∧
        (env.linkPush = Except.ok () → t = []) ∧
        (∀ e, env.linkPush = Except.error e → t = (syncWithRemote env).1) := by
      unfold linkUpstream
      rw [hb]
      dsimp only
      cases hl : env.linkPush with
      | ok v =>
        refine ⟨[], rfl, fun _ => rfl, fun e he => absurd he (by simp)⟩
      | error e =>
        refine ⟨(syncWithRemote env).1, rfl, fun hk => absurd hk (by simp), fun e2 he2 => rfl⟩
    obtain ⟨t, ht, _, hterr⟩ := hlu1
    rw [ht]
    refine ⟨rfl, fun e b2 he hb2 => ?_⟩
    rw [hterr e he]
    have hsw : ∃ t2, (syncWithRemote env).1 =
        Cmd.revparseHead :: Cmd.pushUp "origin" b2 :: t2 := by
      unfold syncWithRemote
      rw [hb2]
      dsimp only
      cases env.syncPush with
      | ok v => exact ⟨_, rfl⟩
      | error pe => exact ⟨_, rfl⟩
    obtain ⟨t2, ht2⟩ := hsw
    rw [ht2]
    rfl

/-- C3 witness: a concrete "no upstream, origin exists, link push rejected"
run issues no prompt and performs link push then sync push. -/
theorem claim3_witness :
    (pushChanges envLink).1.any Cmd.isPromptCmd = false
  ∧ (pushChanges envLink).1.take 6 =
      [Cmd.plainPush, Cmd.getRemotes, Cmd.revparseHead, Cmd.pushUp "origin" "main",
        Cmd.revparseHead, Cmd.pushUp "origin" "main"] := by
  have h := claim3_link_upstream_no_prompt envLink
    "fatal: The current branch main has no upstream branch." ["origin"] rfl (by decide) rfl
    (by decide)
  exact ⟨h.1, (h.2.2 "main" rfl).2 "! [rejected] main -> main (non-fast-forward)" "main" rfl rfl⟩

theorem filter_nil_of_all_not {α : Type} (p : α → Bool) (l : List α)
    (h : ∀ c ∈ l, p c = false) : l.filter p = [] := by
  induction l with
  | nil => rfl
  | cons a l ih =>
    have ha := h a (by simp)
    simp only [List.filter]
    rw [ha]
    exact ih fun c hc => h c (by simp [hc])

theorem sync_trace_not_addRemote (env : PushEnv) :
    ∀ c ∈ (syncWithRemote env).1, Cmd.isAddRemoteCmd c = false := fun c hc => by
  have h := syncWithRemote_syncCmds env c hc
  cases c <;> simp_all [Cmd.isSyncCmd, Cmd.isAddRemoteCmd]

/-- C4 (confirmed): in the "no upstream, no origin remote" scenario, an empty
answer to the URL prompt ends the run with no add-remote and no push, and this
resolves normally; a non-empty answer produces exactly one add-remote call
naming `origin` (whatever the add-remote outcome), and — when the subsequent
sync push succeeds — exactly one push carrying the `-u` flag. -/
theorem claim4_prompt_for_remote (env : PushEnv) (m u : String) (rs : List String)
    (hm : env.plainPush = Except.error m) (hno : isNoUpstreamErr m = true)
    (hr : env.getRemotes = Except.ok rs) (ho : rs.contains "origin" = false)
    (hu : env.promptUrl = Except.ok u) :
    (u = "" → pushChanges env =
        ([Cmd.plainPush, Cmd.getRemotes, Cmd.promptRemoteUrl], Except.ok Report.skippedNoRemote))
  ∧ (u ≠ "" →
      (pushChanges env).1.filter Cmd.isAddRemoteCmd = [Cmd.addRemote "origin" u]
    ∧ ∀ b, env.revparseSync = Except.ok b → env.syncPush = Except.ok () →
        pushChanges env =
          ([Cmd.plainPush, Cmd.getRemotes, Cmd.promptRemoteUrl, Cmd.addRemote "origin" u,
            Cmd.revparseHead, Cmd.pushUp "origin" b], Except.ok Report.remoteConfigured)
      ∧ ((pushChanges env).1.filter Cmd.isPushUpCmd).length = 1) := by
  have hpc : pushChanges env =
      (Cmd.plainPush :: (noUpstreamRecovery env).1, (noUpstreamRecovery env).2) := by
    unfold pushChanges
    rw [hm]
    dsimp only
    rw [if_pos hno]
  have hnr : noUpstreamRecovery env =
      (Cmd.getRemotes :: (promptForRemote env).1, (promptForRemote env).2) := by
    unfold noUpstreamRecovery
    rw [hr]
    dsimp only
    rw [if_neg (by rw [ho]; decide)]
  refine ⟨fun hue => ?_, fun hune => ?_⟩
  · have hpr : promptForRemote env = ([Cmd.promptRemoteUrl], Except.ok Report.skippedNoRemote) := by
      unfold promptForRemote
      rw [hu]
      dsimp only
      rw [if_pos hue]
    rw [hpc, hnr, hpr]
  · have hpr : promptForRemote env =
        (Cmd.promptRemoteUrl :: Cmd.addRemote "origin" u :: (syncWithRemote env).1,
          (syncWithRemote env).2) := by
      unfold promptForRemote
      rw [hu]
      dsimp only
      rw [if_neg hune]
      cases env.addRemote with
      | ok v => rfl
      | error e => rfl
    have hsf : List.filter Cmd.isAddRemoteCmd (syncWithRemote env).1 = [] :=
      filter_nil_of_all_not _ _ (sync_trace_not_addRemote env)
    refine ⟨?_, fun b hb hs => ?_⟩
    · rw [hpc, hnr, hpr]
      simp [Cmd.isAddRemoteCmd, hsf]
    · have hsw : syncWithRemote env =
          ([Cmd.revparseHead, Cmd.pushUp "origin" b], Except.ok Report.remoteConfigured) := by
        unfold syncWithRemote
        rw [hb]
        dsimp only
        rw [hs]
      refine ⟨?_, ?_⟩
      · rw [hpc, hnr, hpr, hsw]
      · rw [hpc, hnr, hpr, hsw]
        simp [Cmd.isPushUpCmd]

/-- C4 witness: with no origin remote, an empty answer is a silent no-op;
a supplied URL yields one add-remote then one `-u` push. -/
theorem claim4_witness :
    pushChanges envSkip =
      ([Cmd.plainPush, Cmd.getRemotes, Cmd.promptRemoteUrl], Except.ok Report.skippedNoRemote)
  ∧ pushChanges envPrompt =
      ([Cmd.plainPush, Cmd.getRemotes, Cmd.promptRemoteUrl,
        Cmd.addRemote "origin" "https://example.com/repo.git",
        Cmd.revparseHead, Cmd.pushUp "origin" "main"], Except.ok Report.remoteConfigured) := by
  have h1 := claim4_prompt_for_remote envSkip
    "fatal: The current branch main has no upstream branch." "" [] rfl (by decide) rfl
    (by decide) rfl
  have h2 := claim4_prompt_for_remote envPrompt
    "fatal: The current branch main has no upstream branch." "https://example.com/repo.git" []
    rfl (by decide) rfl (by decide) rfl
  exact ⟨h1.1 rfl, ((h2.2 (by decide)).2 "main" rfl rfl).1⟩

/-- A batch run in which every stage and commit succeeds. -/
def envOkBatch : BatchEnv :=
  ⟨fun _ => .ok (), fun _ => .ok ()⟩

/-- A batch run in which staging the first file fails and everything else
succeeds. -/
def envFailBatch : BatchEnv :=
  ⟨fun i => if i == 0 then .error "index.lock held" else .ok (), fun _ => .ok ()⟩

/-- Two distinct changed files. -/
def filesAB : List ChangedFile :=
  [⟨"a.txt"⟩, ⟨"b.txt"⟩]

theorem processOne_snd (env : BatchEnv) (i : Nat) (f : ChangedFile) :
    (processOne env i f).2 = (isOkB (env.stageRes i) && isOkB (env.commitRes i)) := by
  unfold processOne
  cases env.stageRes i with
  | error e => rfl
  | ok u =>
    cases env.commitRes i with
    | error e => rfl
    | ok v => rfl

theorem go_trace_ok (env : BatchEnv) (hst : ∀ i, isOkB (env.stageRes i) = true) :
    ∀ (l : List ChangedFile) (s : Nat),
      (processFilesGo env s l).1 = l.flatMap fun f => [FCmd.stage f.path, FCmd.commit f.path] := by
  intro l
  induction l with
  | nil => intro s; rfl
  | cons f fs ih =>
    intro s
    have hso : ∃ u, env.stageRes s = Except.ok u := by
      cases hs : env.stageRes s with
      | error e => have h := hst s; rw [hs] at h; simp [isOkB] at h
      | ok u => exact ⟨u, rfl⟩
    obtain ⟨u, hso⟩ := hso
    have hpo : (processOne env s f).1 = [FCmd.stage f.path, FCmd.commit f.path] := by
      unfold processOne
      rw [hso]
      cases env.commitRes s with
      | error e => rfl
      | ok v => rfl
    show (processOne env s f).1 ++ (processFilesGo env (s + 1) fs).1 = _
    rw [hpo, ih (s + 1), List.flatMap_cons]

theorem commitsOf_bind (l : List ChangedFile) :
    commitsOf (l.flatMap fun f => [FCmd.stage f.path, FCmd.commit f.path]) =
      l.map ChangedFile.path := by
  induction l with
  | nil => rfl
  | cons f fs ih =>
    simp only [List.flatMap_cons, commitsOf, List.filterMap_append] at ih ⊢
    rw [ih]
    rfl

theorem selectFiles_pos (files : List ChangedFile) (limit : Nat) (h : 0 < limit) :
    selectFiles files limit = files.take limit := by
  unfold selectFiles
  rw [if_pos]
  simp only [bne_iff_ne]
  exact Nat.pos_iff_ne_zero.mp h

/-- C6 (amended): for every positive limit L and list of distinct-path changed
files, in a run where staging succeeds, `processFiles` issues exactly
`min N L` commit attempts, in input order, each immediately preceded by the
stage of the same path; the committed paths are the input prefix truncated to
the limit, none twice; the empty list triggers no call at all.  (With L = 0 —
falsy in the source — every file is processed, as §4.2's falsy-limit clause
states, contradicting the `min(N, L)` count.) -/
theorem claim6_batch_commit_shape (env : BatchEnv) (files : List ChangedFile) (limit : Nat)
    (h0 : 0 < limit) (hnd : (files.map ChangedFile.path).Nodup)
    (hst : ∀ i, isOkB (env.stageRes i) = true) :
    (processFiles env files limit).1 =
      (files.take limit).flatMap (fun f => [FCmd.stage f.path, FCmd.commit f.path])
  ∧ commitsOf (processFiles env files limit).1 = (files.map ChangedFile.path).take limit
  ∧ (commitsOf (processFiles env files limit).1).length = Nat.min files.length limit
  ∧ (commitsOf (processFiles env files limit).1).Nodup
  ∧ processFiles env [] limit = ([], []) := by
  have htr : (processFiles env files limit).1 =
      (files.take limit).flatMap (fun f => [FCmd.stage f.path, FCmd.commit f.path]) := by
    unfold processFiles
    cases files with
    | nil => simp
    | cons f fs =>
      rw [if_neg (by simp), selectFiles_pos _ _ h0]
      exact go_trace_ok env hst _ 0
  have hco : commitsOf (processFiles env files limit).1 =
      (files.map ChangedFile.path).take limit := by
    rw [htr, commitsOf_bind, List.map_take]
  refine ⟨htr, hco, ?_, ?_, rfl⟩
  · rw [hco, List.length_take, List.length_map, Nat.min_comm]
  · rw [hco]
    exact (List.take_sublist _ _).nodup hnd

/-- C6 counterexample: with one changed file and limit 0 the claim demands
`min(1, 0) = 0` commit attempts, but the falsy limit makes line 34 select all
files, so one stage-and-commit pair is issued. -/
theorem claim6_counterexample :
    processFiles envOkBatch [⟨"a.txt"⟩] 0 = ([FCmd.stage "a.txt", FCmd.commit "a.txt"], [true])
  ∧ Nat.min 1 0 = 0 := by
  constructor
  · decide
  · decide

/-- C6 witness: two distinct files at limit 5 produce the stage/commit pairs
in order with no duplicate commit. -/
theorem claim6_witness :
    (processFiles envOkBatch filesAB 5).1 =
      [FCmd.stage "a.txt", FCmd.commit "a.txt", FCmd.stage "b.txt", FCmd.commit "b.txt"]
  ∧ (commitsOf (processFiles envOkBatch filesAB 5).1).Nodup := by
  have h := claim6_batch_commit_shape envOkBatch filesAB 5 (by decide) (by decide) fun i => rfl
  constructor
  · rw [h.1]
    decide
  · exact h.2.2.2.1

theorem go_parts (env : BatchEnv) :
    ∀ (l : List ChangedFile) (s i : Nat) (hi : i < l.length),
      FCmd.stage (l.get ⟨i, hi⟩).path ∈ (processFilesGo env s l).1
    ∧ (isOkB (env.stageRes (s + i)) = true →
        FCmd.commit (l.get ⟨i, hi⟩).path ∈ (processFilesGo env s l).1)
    ∧ (processFilesGo env s l).2.get? i =
        some (isOkB (env.stageRes (s + i)) && isOkB (env.commitRes (s + i))) := by
  intro l
  induction l with
  | nil => intro s i hi; exact absurd hi (by simp)
  | cons f fs ih =>
    intro s i hi
    cases i with
    | zero =>
      refine ⟨?_, fun hok => ?_, ?_⟩
      · show FCmd.stage f.path ∈ (processOne env s f).1 ++ (processFilesGo env (s + 1) fs).1
        apply List.mem_append_left
        unfold processOne
        cases env.stageRes s with
        | error e => simp
        | ok u =>
          cases env.commitRes s with
          | error e2 => simp
          | ok v => simp
      · rw [Nat.add_zero] at hok
        show FCmd.commit f.path ∈ (processOne env s f).1 ++ (processFilesGo env (s + 1) fs).1
        apply List.mem_append_left
        have hso : ∃ u, env.stageRes s = Except.ok u := by
          cases hs : env.stageRes s with
          | error e => rw [hs] at hok; simp [isOkB] at hok
          | ok u => exact ⟨u, rfl⟩
        obtain ⟨u, hso⟩ := hso
        unfold processOne
        rw [hso]
        cases env.commitRes s with
        | error e => simp
        | ok v => simp
      · show ((processOne env s f).2 :: (processFilesGo env (s + 1) fs).2).get? 0 = _
        simp only [List.get?]
        rw [processOne_snd, Nat.add_zero]
    | succ j =>
      have hj : j < fs.length := by simpa using hi
      obtain ⟨h1, h2, h3⟩ := ih (s + 1) j hj
      have harith : s + 1 + j = s + (j + 1) := by omega
      refine ⟨?_, fun hok => ?_, ?_⟩
      · show FCmd.stage (fs.get ⟨j, hj⟩).path ∈ (processOne env s f).1 ++ (processFilesGo env (s + 1) fs).1
        exact List.mem_append_right _ h1
      · rw [← harith] at hok
        show FCmd.commit (fs.get ⟨j, hj⟩).path ∈ (processOne env s f).1 ++ (processFilesGo env (s + 1) fs).1
        exact List.mem_append_right _ (h2 hok)
      · show ((processOne env s f).2 :: (processFilesGo env (s + 1) fs).2).get? (j + 1) = _
        simp only [List.get?]
        rw [h3, harith]

/-- C7 (confirmed): within one `processFiles` call, a per-file failure is
caught and recorded and does not abort the batch — every selected file
receives its stage attempt, receives its commit attempt whenever its own
staging succeeded, and has its own success/failure outcome reported. -/
theorem claim7_per_file_isolation (env : BatchEnv) (files : List ChangedFile) (limit i : Nat)
    (hne : files ≠ []) (hi : i < (selectFiles files limit).length) :
    FCmd.stage ((selectFiles files limit).get ⟨i, hi⟩).path ∈ (processFiles env files limit).1
  ∧ (isOkB (env.stageRes i) = true →
      FCmd.commit ((selectFiles files limit).get ⟨i, hi⟩).path ∈ (processFiles env files limit).1)
  ∧ (processFiles env files limit).2.get? i =
      some (isOkB (env.stageRes i) && isOkB (env.commitRes i)) := by
  have hpf : processFiles env files limit = processFilesGo env 0 (selectFiles files limit) := by
    unfold processFiles
    cases files with
    | nil => exact absurd rfl hne
    | cons f fs => rw [if_neg (by simp)]
  obtain ⟨h1, h2, h3⟩ := go_parts env (selectFiles files limit) 0 i hi
  rw [Nat.zero_add] at h2 h3
  rw [hpf]
  exact ⟨h1, h2, h3⟩

/-- C7 witness: with the first file's staging failing, the second file is
still staged and its commit is reported successful. -/
theorem claim7_witness :
    FCmd.stage "b.txt" ∈ (processFiles envFailBatch filesAB 5).1
  ∧ (processFiles envFailBatch filesAB 5).2.get? 1 = some true := by
  have h := claim7_per_file_isolation envFailBatch filesAB 5 1 (by decide) (by decide)
  exact ⟨h.1, h.2.2.trans (by decide)⟩

theorem wft_sound (e : WaitEnv) (t : Nat) :
    ∀ (fuel s n : Nat) (r : Option (List ChangedFile)),
      waitForThresholdFuel e t s fuel = some (n, r) →
      s ≤ n ∧ n < s + fuel ∧ t ≤ pollsCount e n ∧
        (∀ m, s ≤ m → m < n → pollsCount e m < t) ∧ r = e.polls n := by
  intro fuel
  induction fuel with
  | zero =>
    intro s n r h
    exact absurd h (by simp [waitForThresholdFuel])
  | succ fu ih =>
    intro s n r h
    unfold waitForThresholdFuel at h
    by_cases hc : t ≤ pollsCount e s
    · rw [if_pos hc] at h
      simp only [Option.some.injEq, Prod.mk.injEq] at h
      obtain ⟨rfl, rfl⟩ := h
      exact ⟨le_refl _, by omega, hc, fun m hm1 hm2 => absurd hm1 (by omega), rfl⟩
    · rw [if_neg hc] at h
      obtain ⟨h1, h2, h3, h4, h5⟩ := ih (s + 1) n r h
      refine ⟨by omega, by omega, h3, fun m hm1 hm2 => ?_, h5⟩
      by_cases hms : m = s
      · subst hms
        exact Nat.lt_of_not_le hc
      · exact h4 m (by omega) hm2

theorem wft_complete (e : WaitEnv) (t : Nat) :
    ∀ (fuel s n : Nat), s ≤ n → n < s + fuel → t ≤ pollsCount e n →
      (∀ m, s ≤ m → m < n → pollsCount e m < t) →
      waitForThresholdFuel e t s fuel = some (n, e.polls n) := by
  intro fuel
  induction fuel with
  | zero =>
    intro s n h1 h2 h3 h4
    exact absurd h2 (by omega)
  | succ fu ih =>
    intro s n h1 h2 h3 h4
    unfold waitForThresholdFuel
    by_cases hs : t ≤ pollsCount e s
    · rw [if_pos hs]
      have hns : n = s := by
        by_contra hne
        have := h4 s (le_refl s) (by omega)
        omega
      subst hns
      rfl
    · rw [if_neg hs]
      have hsn : s ≠ n := fun hh => hs (hh ▸ h3)
      exact ih (s + 1) n (by omega) (by omega) h3 fun m hm1 hm2 => h4 m (by omega) hm2

/-- C8 (confirmed): the waiter polls at a fixed 5000 ms interval and resolves
exactly at the first poll whose changed-file count reaches the threshold,
returning that poll's file list; it never resolves on any other poll (no
timeout of its own), and whenever some poll reaches the threshold it does
resolve there. -/
theorem claim8_threshold_waiter (e : WaitEnv) (t fuel n : Nat) (hf : n < fuel) :
    (∀ r, waitForThresholdFuel e t 0 fuel = some (n, r) →
        waitResolvesAt e t n ∧ r = e.polls n)
  ∧ (waitResolvesAt e t n → waitForThresholdFuel e t 0 fuel = some (n, e.polls n))
  ∧ (∀ m, pollTimeMs (m + 1) = pollTimeMs m + 5000) := by
  refine ⟨fun r h => ?_, fun h => ?_, fun m => by unfold pollTimeMs; ring⟩
  · obtain ⟨_, _, h3, h4, h5⟩ := wft_sound e t fuel 0 n r h
    exact ⟨⟨h3, fun m hm => h4 m (Nat.zero_le m) hm⟩, h5⟩
  · exact wft_complete e t fuel 0 n (Nat.zero_le n) (by omega) h.1 fun m _ hm => h.2 m hm

/-- Two changed files, below the default threshold. -/
def twoFiles : List ChangedFile :=
  [⟨"a"⟩, ⟨"b"⟩]

/-- Five changed files, meeting the default threshold. -/
def fiveFiles : List ChangedFile :=
  [⟨"a"⟩, ⟨"b"⟩, ⟨"c"⟩, ⟨"d"⟩, ⟨"e"⟩]

/-- The status-reader stub of the spec's test: counts 2, 2, 5 on successive
polls. -/
def eStub : WaitEnv :=
  ⟨fun n => if n == 0 then some twoFiles else if n == 1 then some twoFiles else some fiveFiles⟩

/-- C8 witness: with poll counts [2, 2, 5] and threshold 5, the waiter
resolves at the third poll (index 2) with the third poll's list. -/
theorem claim8_witness :
    waitForThresholdFuel eStub 5 0 10 = some (2, some fiveFiles) := by
  have h := (claim8_threshold_waiter eStub 5 10 2 (by decide)).2.1
    (by constructor <;> decide)
  exact h.trans (by decide)

/-- A status environment in which the working directory is not a repository. -/
def seBad : StatusEnv :=
  ⟨.ok false, .ok []⟩

/-- A waiter environment in which every status read fails. -/
def eNone : WaitEnv :=
  ⟨fun _ => none⟩

/-- C9 (confirmed): a failed status read is never fatal — the main loop's
reaction to a `none` status is a 5-second wait-and-retry that runs no commit
and no push, `checkGitStatus` returns `none` both when the directory is not a
repository and when the query rejects, and the waiter counts a failed read as
0 changed files and does not resolve on it (for any positive threshold). -/
theorem claim9_status_failure_nonfatal :
    mainCycle none = CycleAction.waitRetry 5000
  ∧ cycleRunsCommit (mainCycle none) = false
  ∧ (∀ se : StatusEnv, ∀ ex, se.checkIsRepo = Except.error ex → checkGitStatus se = none)
  ∧ (∀ se : StatusEnv, se.checkIsRepo = Except.ok false → checkGitStatus se = none)
  ∧ (∀ e : WaitEnv, ∀ n, e.polls n = none → pollsCount e n = 0)
  ∧ (∀ e : WaitEnv, ∀ t n, 0 < t → e.polls n = none → ¬ waitResolvesAt e t n) := by
  refine ⟨rfl, rfl, fun se ex hex => ?_, fun se hok => ?_, fun e n h => ?_,
    fun e t n ht h hres => ?_⟩
  · unfold checkGitStatus
    rw [hex]
  · unfold checkGitStatus
    rw [hok]
  · unfold pollsCount
    rw [h]
    rfl
  · have hcount := hres.1
    unfold pollsCount at hcount
    rw [h] at hcount
    simp [pollCount] at hcount
    omega

/-- C9 witness: a not-a-repository status read drives the loop into the
no-commit retry branch, and an always-failing reader never satisfies the
waiter at threshold 5. -/
theorem claim9_witness :
    cycleRunsCommit (mainCycle (checkGitStatus seBad)) = false
  ∧ ¬ waitResolvesAt eNone 5 0 := by
  have h := claim9_status_failure_nonfatal
  refine ⟨?_, h.2.2.2.2.2 eNone 5 0 (by decide) rfl⟩
  rw [h.2.2.2.1 seBad rfl]
  exact h.2.1

/-- C10 (confirmed): when listing local branches fails at startup
(`getBranches` returns null), `main` skips branch selection entirely — no
prompt, no checkout attempt — and still proceeds into the commit-and-push
loop. -/
theorem claim10_branch_failure_skips_selection (e answer : String) :
    branchSelection (getBranches (Except.error e)) answer = ⟨false, none, true⟩ := rfl
